import Mathlib

/-!
Verification development for `src/cron/invite_valid_response.py` of the
`brast2024_2025` repository: the survey-response deduplication, eligibility
validation, and team-invitation pipeline.

The Synapse platform client (`syn`) is modelled as an explicit environment
`Env` of fallible queries returning `Except Exc _`, where `Exc`
distinguishes the exception classes that the Python code handles
differently: `validate_synapse_user` catches only `SynapseHTTPError` and
`ValueError`, while every other wrapper catches all `Exception`s.
-/

/-- Exception classes relevant to the script's `except` clauses:
`synapseclient.core.exceptions.SynapseHTTPError`, `ValueError`, and any
other `Exception` subclass. -/
inductive Exc where
  | synapseHTTPError
  | valueError
  | otherError
  deriving DecidableEq, Repr

/-- One element of the sequence returned by `syn.getTeamMembers`: the
`member` sub-object carries both a `userName` and an `ownerId` field
(`member["member"]["userName"]` vs `member["member"]["ownerId"]`). -/
structure TeamMember where
  userName : String
  ownerId : String
  deriving DecidableEq, Repr

/-- The Synapse client calls the script makes, as an abstract environment.
`synGetUserProfile` returns the `ownerId` field of the profile on success. -/
structure Env where
  synGetUserProfile : String → Except Exc String
  synGetTeamMembers : String → Except Exc (List TeamMember)
  synGetTeamOpenInvitations : String → Except Exc (List String)
  synRestGetChallengeTeams : String → Except Exc (List String)

/-- A CSV row as produced by `csv.DictReader`: a finite string-to-string
mapping, represented as an association list with unique keys. -/
abbrev Row := List (String × String)

/-- `row.get(k)`: the value at key `k`, or `None` when the key is absent. -/
def rowGet (row : Row) (k : String) : Option String :=
  (row.find? (fun p => p.1 = k)).map (fun p => p.2)

/-- `row[k] = v`: Python dict assignment — update in place when the key is
present, otherwise append the new binding. -/
def rowSet (row : Row) (k v : String) : Row :=
  if row.any (fun p => p.1 = k) then
    row.map (fun p => if p.1 = k then (k, v) else p)
  else row ++ [(k, v)]

/-- `REGISTRATION_TEAM_ID` from `__main__`. -/
def REGISTRATION_TEAM_ID : String := "3501723"

/-- `DATA_ACCESS_TEAM_ID` from `__main__`. -/
def DATA_ACCESS_TEAM_ID : String := "3502558"

/-- Loop body of `get_unique_rows`: the insertion-ordered dict
`unique_rows` is represented by the list of keys inserted so far (`seen`)
plus the rows emitted in first-seen order. A row is kept when its
`"Synapse Username"` value is truthy (present and non-empty) and not yet a
key of the dict. -/
def get_unique_rows_aux (seen : List String) : List Row → List Row
  | [] => []
  | row :: rest =>
    match rowGet row "Synapse Username" with
    | none => get_unique_rows_aux seen rest
    | some key =>
      if key = "" then get_unique_rows_aux seen rest
      else if key ∈ seen then get_unique_rows_aux seen rest
      else row :: get_unique_rows_aux (key :: seen) rest

/-- `get_unique_rows`: ensure rows are unique by Synapse Username;
`list(unique_rows.values())` of an insertion-ordered dict keeps the first
row per key, in first-seen order. -/
def get_unique_rows (rows : List Row) : List Row :=
  get_unique_rows_aux [] rows

/-- `get_team_members`: all members of a team, projected to their
`userName`; any exception yields `[]`. -/
def get_team_members (env : Env) (team_id : String) : List String :=
  match env.synGetTeamMembers team_id with
  | .ok members => members.map (fun member => member.userName)
  | .error _ => []

/-- `get_registered_teams`: the team ids registered for the challenge
(one `restGET` call, `limit=1000`); any exception yields `[]`. -/
def get_registered_teams (env : Env) (challenge_id : String) : List String :=
  match env.synRestGetChallengeTeams challenge_id with
  | .ok registered_teams => registered_teams
  | .error _ => []

/-- `get_all_registered_team_members`: union (here: concatenation — only
membership is ever observed) of the member userNames of every registered
team, accumulated over the team list. -/
def get_all_registered_team_members (env : Env) (challenge_id : String) : List String :=
  (get_registered_teams env challenge_id).foldl
    (fun team_members team_id => team_members ++ get_team_members env team_id) []

/-- `validate_synapse_user`: `None` for a falsy input; otherwise call
`getUserProfile` and return its `ownerId`, mapping `SynapseHTTPError` and
`ValueError` to `None`. Any other exception is NOT caught and propagates
(`.error`). -/
def validate_synapse_user (env : Env) (user : Option String) : Except Exc (Option String) :=
  match user with
  | none => .ok none
  | some u =>
    if u = "" then .ok none
    else
      match env.synGetUserProfile u with
      | .ok ownerId => .ok (some ownerId)
      | .error .synapseHTTPError => .ok none
      | .error .valueError => .ok none
      | .error e => .error e

/-- `is_user_in_team`: whether some returned member's `ownerId` equals
`user_id`; any exception yields `False`. -/
def is_user_in_team (env : Env) (team_id user_id : String) : Bool :=
  match env.synGetTeamMembers team_id with
  | .ok members => members.any (fun member => member.ownerId = user_id)
  | .error _ => false

/-- `has_pending_invitation`: whether some open invitation's `inviteeId`
equals `user_id`; any exception yields `False`. -/
def has_pending_invitation (env : Env) (team_id user_id : String) : Bool :=
  match env.synGetTeamOpenInvitations team_id with
  | .ok invitations => invitations.any (fun invitation => invitation = user_id)
  | .error _ => false

/-- `is_user_registered`: falsy `user_id` is unregistered; otherwise the
user passes when in the registration team (by `ownerId`) or when
`user_id` is in the `team_members` collection (which the caller fills
with userNames). -/
def is_user_registered (env : Env) (user_id : String) (team_members : List String) : Bool :=
  if user_id = "" then false
  else if is_user_in_team env REGISTRATION_TEAM_ID user_id then true
  else if user_id ∈ team_members then true
  else false

/-- The per-row rejection reasons, one per `continue` branch of
`validate_responses` (observable through the distinct log messages). -/
inductive Reason where
  | UnknownIdentity
  | NotRegistered
  | AlreadyMember
  | PendingInvitation
  deriving DecidableEq, Repr

/-- The decision `validate_responses` takes for one row. -/
inductive Decision where
  | Accepted (account_id : String)
  | Rejected (reason : Reason)
  deriving DecidableEq, Repr

/-- The body of the `validate_responses` loop for one row: resolve the
username (an uncaught exception propagates), then the `continue` chain —
falsy `user_id`, then `is_user_registered`, then
`is_user_in_team(DATA_ACCESS_TEAM_ID, ...)`, then
`has_pending_invitation(DATA_ACCESS_TEAM_ID, ...)`; otherwise accept. -/
def evalRow (env : Env) (registered_team_members : List String) (row : Row) :
    Except Exc Decision :=
  match validate_synapse_user env (rowGet row "Synapse Username") with
  | .error e => .error e
  | .ok none => .ok (.Rejected .UnknownIdentity)
  | .ok (some user_id) =>
    if user_id = "" then .ok (.Rejected .UnknownIdentity)
    else if is_user_registered env user_id registered_team_members = false then
      .ok (.Rejected .NotRegistered)
    else if is_user_in_team env DATA_ACCESS_TEAM_ID user_id then
      .ok (.Rejected .AlreadyMember)
    else if has_pending_invitation env DATA_ACCESS_TEAM_ID user_id then
      .ok (.Rejected .PendingInvitation)
    else .ok (.Accepted user_id)

/-- `validate_responses`: per row, a `Rejected` decision is a `continue`;
an `Accepted user_id` sets `row["submitterid"] = user_id` and appends the
row to `valid_responses`. An uncaught exception aborts the whole call
(`.error`). -/
def validate_responses (env : Env) (registered_team_members : List String) :
    List Row → Except Exc (List Row)
  | [] => .ok []
  | row :: rest =>
    match evalRow env registered_team_members row with
    | .error e => .error e
    | .ok (.Rejected _) => validate_responses env registered_team_members rest
    | .ok (.Accepted user_id) =>
      match validate_responses env registered_team_members rest with
      | .error e => .error e
      | .ok valid => .ok (rowSet row "submitterid" user_id :: valid)

/-- The `__main__` dispatch loop over `valid_responses`: for each row,
`invite_user_to_team` is called exactly when `row.get("submitterid")` is
truthy; the list of `user_id`s passed to the Dispatcher, in order.
(`invite_user_to_team` itself catches every exception.) -/
def dispatched_user_ids (valid_responses : List Row) : List String :=
  (valid_responses.filterMap (fun row => rowGet row "submitterid")).filter
    (fun user_id => user_id ≠ "")

/-- The `__main__` data path from fetched rows to `valid_responses`:
dedup, build the registered-member collection once, validate every row
against that one snapshot. -/
def run_validation (env : Env) (challenge_id : String) (rows : List Row) :
    Except Exc (List Row) :=
  validate_responses env (get_all_registered_team_members env challenge_id)
    (get_unique_rows rows)

/-- Modelled from the spec (§4.1), for comparison with `get_unique_rows`:
"an ordered sequence retaining only the first record seen per non-empty
identity-claim value; records with an empty/missing identity-claim are
dropped entirely", stated as a direct recursion that keeps a row and
filters every later row carrying the same claim. -/
def dedupSpecKeep : List Row → List Row
  | [] => []
  | row :: rest =>
    match rowGet row "Synapse Username" with
    | none => dedupSpecKeep rest
    | some key =>
      if key = "" then dedupSpecKeep rest
      else row ::
        dedupSpecKeep (rest.filter (fun r => rowGet r "Synapse Username" ≠ some key))
termination_by l => l.length
decreasing_by
  · simp only [List.length_cons]; omega
  · simp only [List.length_cons]
    exact Nat.lt_succ_of_le (List.length_filter_le _ _)

/-- Modelled from the spec (§3), for comparison with the set the code
builds: the Registered-Member Set is "a set of Account Reference values
... (union of a direct 'registration' group membership and membership
across all teams registered for the challenge)", where an Account
Reference is the canonical opaque account id — the `ownerId`. The code's
`get_all_registered_team_members` collects `userName`s instead. -/
def registeredMemberSetSpec (env : Env) (challenge_id : String) : List String :=
  (match env.synGetTeamMembers REGISTRATION_TEAM_ID with
    | .ok members => members.map (fun m => m.ownerId)
    | .error _ => []) ++
  (get_registered_teams env challenge_id).foldl
    (fun acc team_id =>
      acc ++ (match env.synGetTeamMembers team_id with
        | .ok members => members.map (fun m => m.ownerId)
        | .error _ => []))
    []

/-- A concrete platform state: alice/carol/erin resolve to account ids
101/103/104 and are direct registration-team members; bob resolves to
102 and is already in the data access team; dave's profile lookup raises
an exception class the code does not catch; team `T1` is registered for
challenge `ch1` and has member bob. -/
def envA : Env where
  synGetUserProfile := fun u =>
    if u = "alice" then .ok "101"
    else if u = "bob" then .ok "102"
    else if u = "carol" then .ok "103"
    else if u = "dave" then .error .otherError
    else if u = "erin" then .ok "104"
    else .error .synapseHTTPError
  synGetTeamMembers := fun t =>
    if t = REGISTRATION_TEAM_ID then
      .ok [⟨"alice", "101"⟩, ⟨"carol", "103"⟩, ⟨"erin", "104"⟩]
    else if t = DATA_ACCESS_TEAM_ID then .ok [⟨"bob", "102"⟩]
    else if t = "T1" then .ok [⟨"bob", "102"⟩]
    else .error .otherError
  synGetTeamOpenInvitations := fun t =>
    if t = DATA_ACCESS_TEAM_ID then .ok [] else .error .otherError
  synRestGetChallengeTeams := fun c =>
    if c = "ch1" then .ok ["T1"] else .error .otherError

/-- A platform state where every query fails except carol's profile
lookup (a caught `SynapseHTTPError` for everyone else) and the
registration-team member list containing carol. -/
def envB : Env where
  synGetUserProfile := fun u =>
    if u = "carol" then .ok "103" else .error .synapseHTTPError
  synGetTeamMembers := fun t =>
    if t = REGISTRATION_TEAM_ID then .ok [⟨"carol", "103"⟩]
    else .error .otherError
  synGetTeamOpenInvitations := fun _ => .error .otherError
  synRestGetChallengeTeams := fun _ => .error .otherError

/-- A platform state where account 123 (userName alice) is a member of
registered team `T1` but not of the registration team, and the data
access team and its invitation list are empty. -/
def envC : Env where
  synGetUserProfile := fun u =>
    if u = "alice" then .ok "123" else .error .synapseHTTPError
  synGetTeamMembers := fun t =>
    if t = "T1" then .ok [⟨"alice", "123"⟩]
    else if t = REGISTRATION_TEAM_ID then .ok []
    else if t = DATA_ACCESS_TEAM_ID then .ok []
    else .error .otherError
  synGetTeamOpenInvitations := fun _ => .ok []
  synRestGetChallengeTeams := fun c =>
    if c = "ch1" then .ok ["T1"] else .error .otherError

/-- A platform state where the two distinct usernames alice and bob both
resolve to the same account id 123, which is registered (via the
registration team) and not yet in the data access team. -/
def envE : Env where
  synGetUserProfile := fun u =>
    if u = "alice" then .ok "123"
    else if u = "bob" then .ok "123"
    else .error .synapseHTTPError
  synGetTeamMembers := fun t =>
    if t = REGISTRATION_TEAM_ID then .ok [⟨"zed", "123"⟩]
    else if t = DATA_ACCESS_TEAM_ID then .ok []
    else .error .otherError
  synGetTeamOpenInvitations := fun _ => .ok []
  synRestGetChallengeTeams := fun c =>
    if c = "ch1" then .ok [] else .error .otherError

theorem dedupSpecKeep_nil : dedupSpecKeep [] = [] := by
  rw [dedupSpecKeep]

theorem dedupSpecKeep_cons_none {row : Row} {rest : List Row}
    (hk : rowGet row "Synapse Username" = none) :
    dedupSpecKeep (row :: rest) = dedupSpecKeep rest := by
  conv_lhs => rw [dedupSpecKeep.eq_def]
  simp only [hk]

theorem dedupSpecKeep_cons_empty {row : Row} {rest : List Row}
    (hk : rowGet row "Synapse Username" = some "") :
    dedupSpecKeep (row :: rest) = dedupSpecKeep rest := by
  conv_lhs => rw [dedupSpecKeep.eq_def]
  simp [hk]

theorem dedupSpecKeep_cons_some {row : Row} {rest : List Row} {key : String}
    (hk : rowGet row "Synapse Username" = some key) (hkey : key ≠ "") :
    dedupSpecKeep (row :: rest) =
      row :: dedupSpecKeep
        (rest.filter (fun r => rowGet r "Synapse Username" ≠ some key)) := by
  conv_lhs => rw [dedupSpecKeep.eq_def]
  simp only [hk, if_neg hkey]

theorem dedupSpecKeep_subset : ∀ l : List Row, ∀ r ∈ dedupSpecKeep l, r ∈ l := by
  intro l
  induction l using dedupSpecKeep.induct with
  | case1 => intro r hr; rw [dedupSpecKeep_nil] at hr; exact absurd hr (List.not_mem_nil r)
  | case2 row rest hk ih =>
    intro r hr
    rw [dedupSpecKeep_cons_none hk] at hr
    exact List.mem_cons_of_mem _ (ih r hr)
  | case3 row rest hk ih =>
    intro r hr
    rw [dedupSpecKeep_cons_empty hk] at hr
    exact List.mem_cons_of_mem _ (ih r hr)
  | case4 row rest key hk hkey ih =>
    intro r hr
    rw [dedupSpecKeep_cons_some hk hkey] at hr
    rcases List.mem_cons.mp hr with h | h
    · exact h ▸ List.mem_cons_self _ _
    · exact List.mem_cons_of_mem _ (List.mem_of_mem_filter (ih r h))

theorem dedupSpecKeep_idem : ∀ l : List Row,
    dedupSpecKeep (dedupSpecKeep l) = dedupSpecKeep l := by
  intro l
  induction l using dedupSpecKeep.induct with
  | case1 => rw [dedupSpecKeep_nil, dedupSpecKeep_nil]
  | case2 row rest hk ih => rw [dedupSpecKeep_cons_none hk]; exact ih
  | case3 row rest hk ih => rw [dedupSpecKeep_cons_empty hk]; exact ih
  | case4 row rest key hk hkey ih =>
    rw [dedupSpecKeep_cons_some hk hkey]
    rw [dedupSpecKeep_cons_some hk hkey]
    congr 1
    rw [List.filter_eq_self.mpr, ih]
    intro r hr
    have := List.mem_filter.mp (dedupSpecKeep_subset _ r hr)
    exact this.2

theorem get_unique_rows_aux_eq (rows : List Row) : ∀ seen : List String,
    get_unique_rows_aux seen rows =
      dedupSpecKeep (rows.filter
        (fun r => !(seen.any (fun k => rowGet r "Synapse Username" = some k)))) := by
  induction rows with
  | nil => intro seen; simp [get_unique_rows_aux, dedupSpecKeep_nil]
  | cons row rest ih =>
    intro seen
    cases hk : rowGet row "Synapse Username" with
    | none =>
      have hp : (!(seen.any (fun k => rowGet row "Synapse Username" = some k))) = true := by
        simp [hk]
      simp only [get_unique_rows_aux, hk]
      simp only [List.filter_cons, hp, if_true]
      rw [dedupSpecKeep_cons_none hk]
      exact ih seen
    | some key =>
      by_cases hkey : key = ""
      · subst hkey
        simp only [get_unique_rows_aux, hk, if_pos rfl]
        by_cases hmem : "" ∈ seen
        · have hp : (!(seen.any (fun k => rowGet row "Synapse Username" = some k))) = false := by
            simp only [Bool.not_eq_false', List.any_eq_true, decide_eq_true_eq]
            exact ⟨"", hmem, hk⟩
          simp only [List.filter_cons, hp, Bool.false_eq_true, if_false]
          exact ih seen
        · have hp : (!(seen.any (fun k => rowGet row "Synapse Username" = some k))) = true := by
            simp only [Bool.not_eq_true', List.any_eq_false, decide_eq_true_eq, hk,
              Option.some.injEq]
            intro k hks hkk
            exact hmem (hkk ▸ hks)
          simp only [List.filter_cons, hp, if_true]
          rw [dedupSpecKeep_cons_empty hk]
          exact ih seen
      · by_cases hmem : key ∈ seen
        · simp only [get_unique_rows_aux, hk, if_neg hkey, if_pos hmem]
          have hp : (!(seen.any (fun k => rowGet row "Synapse Username" = some k))) = false := by
            simp only [Bool.not_eq_false', List.any_eq_true, decide_eq_true_eq]
            exact ⟨key, hmem, hk⟩
          simp only [List.filter_cons, hp, Bool.false_eq_true, if_false]
          exact ih seen
        · simp only [get_unique_rows_aux, hk, if_neg hkey, if_neg hmem]
          have hp : (!(seen.any (fun k => rowGet row "Synapse Username" = some k))) = true := by
            simp only [Bool.not_eq_true', List.any_eq_false, decide_eq_true_eq, hk,
              Option.some.injEq]
            intro k hks hkk
            exact hmem (hkk ▸ hks)
          simp only [List.filter_cons, hp, if_true]
          rw [dedupSpecKeep_cons_some hk hkey, List.filter_filter]
          rw [ih (key :: seen)]
          congr 2
          apply List.filter_congr
          intro r _
          simp only [List.any_cons, Bool.not_or, decide_eq_true_eq]
          cases hr : rowGet r "Synapse Username" with
          | none => simp
          | some kk =>
            by_cases h1 : kk = key <;> by_cases h2 : seen.any
                (fun k => rowGet r "Synapse Username" = some k) <;>
              simp_all [Bool.and_comm]

/-- The Deduplicator agrees with its first-seen specification. -/
theorem get_unique_rows_eq_dedupSpecKeep (rows : List Row) :
    get_unique_rows rows = dedupSpecKeep rows := by
  rw [get_unique_rows, get_unique_rows_aux_eq rows []]
  congr 1
  apply List.filter_eq_self.mpr
  intro r _
  simp

/-- C7: the Deduplicator keeps exactly the first record per distinct
non-empty identity-claim value, in first-seen order, dropping records
with an empty or missing claim; in particular on the spec's example
input it keeps the first alice row and the bob row. -/
theorem get_unique_rows_first_seen :
    (∀ rows : List Row, get_unique_rows rows = dedupSpecKeep rows) ∧
    get_unique_rows
      [[("Synapse Username", "alice")], [("Synapse Username", "alice")],
       [("Synapse Username", "")], [("Synapse Username", "bob")]] =
      [[("Synapse Username", "alice")], [("Synapse Username", "bob")]] :=
  ⟨get_unique_rows_eq_dedupSpecKeep, by decide⟩

/-- C8: the Deduplicator is idempotent — applying it to its own output
yields that output unchanged. -/
theorem get_unique_rows_idempotent :
    ∀ rows : List Row, get_unique_rows (get_unique_rows rows) = get_unique_rows rows := by
  intro rows
  simp only [get_unique_rows_eq_dedupSpecKeep]
  exact dedupSpecKeep_idem rows

/-- Updating the value at key `k` leaves `find?` for a different key
unchanged. -/
theorem find_key_map_update (k v k' : String) (h : k' ≠ k) : ∀ row : Row,
    List.find? (fun p => p.1 = k') (row.map (fun p => if p.1 = k then (k, v) else p)) =
      List.find? (fun p => p.1 = k') row := by
  intro row
  induction row with
  | nil => rfl
  | cons p rest ih =>
    simp only [List.map_cons, List.find?_cons]
    by_cases hp : p.1 = k
    · have e1 : (decide (((k, v) : String × String).1 = k')) = false :=
        decide_eq_false (fun hh => h hh.symm)
      have e2 : (decide (p.1 = k')) = false :=
        decide_eq_false (by rw [hp]; exact fun hh => h hh.symm)
      simp only [if_pos hp, e1, e2]
      exact ih
    · by_cases hq : p.1 = k'
      · have e2 : (decide (p.1 = k')) = true := decide_eq_true hq
        have e3 : (decide ((if p.1 = k then ((k, v) : String × String) else p).1 = k')) = true := by
          rw [if_neg hp]; exact e2
        simp only [e3, e2]
        rw [if_neg hp]
      · have e2 : (decide (p.1 = k')) = false := decide_eq_false hq
        simp only [if_neg hp, e2]
        exact ih

/-- Python dict assignment only changes the assigned key: reading any
other key is unaffected. -/
theorem rowGet_rowSet_ne (row : Row) (k v k' : String) (h : k' ≠ k) :
    rowGet (rowSet row k v) k' = rowGet row k' := by
  rw [rowSet]
  split
  · rw [rowGet, rowGet, find_key_map_update k v k' h row]
  · rw [rowGet, rowGet, List.find?_append]
    have h1 : List.find? (fun p => decide (p.1 = k')) [(k, v)] = none := by
      simp only [List.find?_singleton]
      have e1 : (decide (((k, v) : String × String).1 = k')) = false :=
        decide_eq_false (fun hh => h hh.symm)
      rw [e1]
      simp
    rw [h1]
    simp

/-- C9: every row that evaluation outputs is an input row with only the
`submitterid` field assigned (once); every other field reads the same as
in the record received from the source. -/
theorem validate_responses_frame (env : Env) (tm : List String) :
    ∀ rows valid, validate_responses env tm rows = .ok valid →
      ∀ r2 ∈ valid, ∃ r ∈ rows, ∃ uid,
        r2 = rowSet r "submitterid" uid ∧
        ∀ k, k ≠ "submitterid" → rowGet r2 k = rowGet r k := by
  intro rows
  induction rows with
  | nil =>
    intro valid h r2 hr2
    simp only [validate_responses] at h
    cases h
    exact absurd hr2 (List.not_mem_nil r2)
  | cons row rest ih =>
    intro valid h r2 hr2
    cases hev : evalRow env tm row with
    | error e =>
      simp only [validate_responses, hev] at h
      exact Except.noConfusion h
    | ok d =>
      cases d with
      | Rejected reason =>
        simp only [validate_responses, hev] at h
        obtain ⟨r, hr, uid, heq, hframe⟩ := ih valid h r2 hr2
        exact ⟨r, List.mem_cons_of_mem _ hr, uid, heq, hframe⟩
      | Accepted uid =>
        simp only [validate_responses, hev] at h
        cases hrest : validate_responses env tm rest with
        | error e => rw [hrest] at h; simp at h
        | ok vs =>
          rw [hrest] at h
          have hv : valid = rowSet row "submitterid" uid :: vs := by
            cases h; rfl
          subst hv
          rcases List.mem_cons.mp hr2 with h2 | h2
          · refine ⟨row, List.mem_cons_self _ _, uid, h2, ?_⟩
            intro k hk
            rw [h2]
            exact rowGet_rowSet_ne row "submitterid" uid k hk
          · obtain ⟨r, hr, uid2, heq, hframe⟩ := ih vs hrest r2 h2
            exact ⟨r, List.mem_cons_of_mem _ hr, uid2, heq, hframe⟩

/-- Each distinct non-empty username key occurs at most once among the
rows the Deduplicator's specification keeps. -/
theorem dedupSpecKeep_countP_le_one : ∀ l : List Row, ∀ u : String,
    (dedupSpecKeep l).countP (fun r => rowGet r "Synapse Username" = some u) ≤ 1 := by
  intro l
  induction l using dedupSpecKeep.induct with
  | case1 => intro u; rw [dedupSpecKeep_nil]; simp
  | case2 row rest hk ih => intro u; rw [dedupSpecKeep_cons_none hk]; exact ih u
  | case3 row rest hk ih => intro u; rw [dedupSpecKeep_cons_empty hk]; exact ih u
  | case4 row rest key hk hkey ih =>
    intro u
    rw [dedupSpecKeep_cons_some hk hkey, List.countP_cons]
    by_cases hu : key = u
    · subst hu
      have hz : (dedupSpecKeep
          (rest.filter (fun r => rowGet r "Synapse Username" ≠ some key))).countP
          (fun r => rowGet r "Synapse Username" = some key) = 0 := by
        rw [List.countP_eq_zero]
        intro a ha
        have hmem := dedupSpecKeep_subset _ a ha
        have := (List.mem_filter.mp hmem).2
        simp only [decide_eq_true_eq] at this ⊢
        exact this
      rw [hz]
      simp [hk]
    · have hp : (decide (rowGet row "Synapse Username" = some u)) = false := by
        simp only [decide_eq_false_iff_not, hk, Option.some.injEq]
        exact hu
      rw [hp]
      simpa using ih u

/-- `validate_responses` never increases the number of rows carrying a
given username value: each output row keeps the username of the input
row it derives from. -/
theorem validate_responses_countP_le (env : Env) (tm : List String) (u : String) :
    ∀ rows valid, validate_responses env tm rows = .ok valid →
      valid.countP (fun r => rowGet r "Synapse Username" = some u) ≤
        rows.countP (fun r => rowGet r "Synapse Username" = some u) := by
  intro rows
  induction rows with
  | nil =>
    intro valid h
    simp only [validate_responses] at h
    cases h
    simp
  | cons row rest ih =>
    intro valid h
    cases hev : evalRow env tm row with
    | error e =>
      simp only [validate_responses, hev] at h
      exact Except.noConfusion h
    | ok d =>
      cases d with
      | Rejected reason =>
        simp only [validate_responses, hev] at h
        calc valid.countP _ ≤ rest.countP _ := ih valid h
          _ ≤ (row :: rest).countP _ := by rw [List.countP_cons]; omega
      | Accepted uid =>
        simp only [validate_responses, hev] at h
        cases hrest : validate_responses env tm rest with
        | error e => rw [hrest] at h; simp at h
        | ok vs =>
          rw [hrest] at h
          have hv : valid = rowSet row "submitterid" uid :: vs := by
            cases h; rfl
          subst hv
          rw [List.countP_cons, List.countP_cons]
          have hsame : (decide (rowGet (rowSet row "submitterid" uid) "Synapse Username" =
              some u)) = (decide (rowGet row "Synapse Username" = some u)) := by
            rw [rowGet_rowSet_ne row "submitterid" uid "Synapse Username" (by decide)]
          rw [hsame]
          have := ih vs hrest
          omega

/-- C1: once the identity claim resolves, the checks run in the fixed
order registration, already-member, pending-invitation, the first failing
check giving the reason; an account neither in the passed
registered-member collection nor a direct registration-team member is
rejected `NotRegistered`, never `AlreadyMember`, even when it is already
in the data access team. -/
theorem eligibility_precedence_order (env : Env) (tm : List String) (row : Row) (uid : String)
    (hres : validate_synapse_user env (rowGet row "Synapse Username") = .ok (some uid))
    (huid : uid ≠ "") :
    (evalRow env tm row = .ok (
      if is_user_registered env uid tm = false then Decision.Rejected .NotRegistered
      else if is_user_in_team env DATA_ACCESS_TEAM_ID uid then Decision.Rejected .AlreadyMember
      else if has_pending_invitation env DATA_ACCESS_TEAM_ID uid then
        Decision.Rejected .PendingInvitation
      else Decision.Accepted uid)) ∧
    (uid ∉ tm → is_user_in_team env REGISTRATION_TEAM_ID uid = false →
      evalRow env tm row = .ok (Decision.Rejected .NotRegistered) ∧
      evalRow env tm row ≠ .ok (Decision.Rejected .AlreadyMember)) := by
  constructor
  · by_cases hr : is_user_registered env uid tm = false
    · simp [evalRow, hres, huid, hr]
    · by_cases hm : is_user_in_team env DATA_ACCESS_TEAM_ID uid
      · simp [evalRow, hres, huid, hr, hm]
      · by_cases hp : has_pending_invitation env DATA_ACCESS_TEAM_ID uid
        · simp [evalRow, hres, huid, hr, hm, hp]
        · simp [evalRow, hres, huid, hr, hm, hp]
  · intro hnotmem hnotreg
    have hreg : is_user_registered env uid tm = false := by
      simp [is_user_registered, huid, hnotreg, hnotmem]
    constructor
    · simp [evalRow, hres, huid, hreg]
    · simp [evalRow, hres, huid, hreg]

/-- C2 (amended): a transient failure of the already-member or
pending-invitation query is caught inside the query wrapper and treated
as the condition being false — it never produces a rejection by itself
(the code has no query-failure rejection reason), so a registered user
whose two target-team queries both fail is accepted; the rest of the
batch is evaluated normally. -/
theorem transient_query_failure_swallowed (env : Env) (tm : List String) (row : Row)
    (rest : List Row) (uid : String) (e1 e2 : Exc)
    (hres : validate_synapse_user env (rowGet row "Synapse Username") = .ok (some uid))
    (huid : uid ≠ "")
    (hreg : is_user_registered env uid tm = true)
    (hmem : env.synGetTeamMembers DATA_ACCESS_TEAM_ID = .error e1)
    (hinv : env.synGetTeamOpenInvitations DATA_ACCESS_TEAM_ID = .error e2) :
    is_user_in_team env DATA_ACCESS_TEAM_ID uid = false ∧
    has_pending_invitation env DATA_ACCESS_TEAM_ID uid = false ∧
    evalRow env tm row = .ok (.Accepted uid) ∧
    validate_responses env tm (row :: rest) =
      (validate_responses env tm rest).map
        (fun valid => rowSet row "submitterid" uid :: valid) := by
  have hm : is_user_in_team env DATA_ACCESS_TEAM_ID uid = false := by
    simp [is_user_in_team, hmem]
  have hp : has_pending_invitation env DATA_ACCESS_TEAM_ID uid = false := by
    simp [has_pending_invitation, hinv]
  have hev : evalRow env tm row = .ok (.Accepted uid) := by
    simp [evalRow, hres, huid, hreg, hm, hp]
  refine ⟨hm, hp, hev, ?_⟩
  simp only [validate_responses, hev]
  cases hrest : validate_responses env tm rest with
  | error e => simp [Except.map]
  | ok vs => simp [Except.map]

/-- C4: a response with a missing or empty identity claim, or whose claim
fails to resolve (`SynapseHTTPError` or `ValueError` from the profile
lookup), is rejected `UnknownIdentity` regardless of all other state. -/
theorem unknown_identity_always_rejected (env : Env) (tm : List String) (row : Row)
    (h : rowGet row "Synapse Username" = none ∨ rowGet row "Synapse Username" = some "" ∨
      ∃ u, rowGet row "Synapse Username" = some u ∧
        (env.synGetUserProfile u = .error .synapseHTTPError ∨
         env.synGetUserProfile u = .error .valueError)) :
    evalRow env tm row = .ok (.Rejected .UnknownIdentity) := by
  rcases h with h | h | ⟨u, hu, herr⟩
  · simp [evalRow, validate_synapse_user, h]
  · simp [evalRow, validate_synapse_user, h]
  · by_cases hue : u = ""
    · subst hue
      simp [evalRow, validate_synapse_user, hu]
    · rcases herr with he | he <;>
        simp [evalRow, validate_synapse_user, hu, hue, he]

/-- `validate_synapse_user` can only raise when the profile lookup raises
an exception class other than `SynapseHTTPError`/`ValueError`. -/
theorem validate_synapse_user_error_shape (env : Env) (user : Option String) (e : Exc)
    (h : validate_synapse_user env user = .error e) :
    ∃ u, user = some u ∧ env.synGetUserProfile u = .error .otherError ∧ e = .otherError := by
  cases user with
  | none => simp [validate_synapse_user] at h
  | some u =>
    by_cases hu : u = ""
    · subst hu
      simp [validate_synapse_user] at h
    · simp only [validate_synapse_user, if_neg hu] at h
      cases hp : env.synGetUserProfile u with
      | ok oid => rw [hp] at h; exact Except.noConfusion h
      | error e2 =>
        rw [hp] at h
        cases e2 with
        | synapseHTTPError => exact Except.noConfusion h
        | valueError => exact Except.noConfusion h
        | otherError =>
          have he : e = .otherError := by
            have := h
            injection this with h2
            exact h2.symm
          exact ⟨u, rfl, hp, he⟩

/-- C5 (amended): as long as the profile lookup never raises an
exception class other than `SynapseHTTPError`/`ValueError`, no
collaborator failure aborts the batch — membership, team-list and
invitation queries may fail arbitrarily and every row is still
processed to a decision. -/
theorem batch_never_aborts_amended (env : Env)
    (hprof : ∀ u, env.synGetUserProfile u ≠ .error .otherError) :
    ∀ (tm : List String) (rows : List Row),
      (validate_responses env tm rows).isOk = true := by
  intro tm rows
  induction rows with
  | nil => rfl
  | cons row rest ih =>
    cases hev : evalRow env tm row with
    | error e =>
      exfalso
      cases hres : validate_synapse_user env (rowGet row "Synapse Username") with
      | error e2 =>
        obtain ⟨u, _, hp, _⟩ := validate_synapse_user_error_shape env _ e2 hres
        exact absurd hp (hprof u)
      | ok o =>
        cases o with
        | none => simp [evalRow, hres] at hev
        | some uid =>
          simp only [evalRow, hres] at hev
          split at hev
          · exact Except.noConfusion hev
          · split at hev
            · exact Except.noConfusion hev
            · split at hev
              · exact Except.noConfusion hev
              · split at hev
                · exact Except.noConfusion hev
                · exact Except.noConfusion hev
    | ok d =>
      cases d with
      | Rejected reason =>
        simp only [validate_responses, hev]
        exact ih
      | Accepted uid =>
        simp only [validate_responses, hev]
        cases hrest : validate_responses env tm rest with
        | error e =>
          rw [hrest] at ih
          exact Bool.noConfusion ih
        | ok vs => rfl

/-- C6 (amended): the Dispatcher is invoked at most once per row of the
accepted output — hence at most once per distinct identity-claim value
after deduplication — but distinct claims resolving to the same account
id each trigger their own invitation, so at-most-once per account id
does not hold (see the counterexample). -/
theorem at_most_one_dispatch_per_claim (env : Env) (tm : List String)
    (rows valid : List Row)
    (h : validate_responses env tm (get_unique_rows rows) = .ok valid) (u : String) :
    valid.countP (fun r => rowGet r "Synapse Username" = some u) ≤ 1 ∧
    (dispatched_user_ids valid).length ≤ valid.length := by
  constructor
  · calc valid.countP (fun r => rowGet r "Synapse Username" = some u)
        ≤ (get_unique_rows rows).countP (fun r => rowGet r "Synapse Username" = some u) :=
          validate_responses_countP_le env tm u _ valid h
      _ = (dedupSpecKeep rows).countP (fun r => rowGet r "Synapse Username" = some u) := by
          rw [get_unique_rows_eq_dedupSpecKeep]
      _ ≤ 1 := dedupSpecKeep_countP_le_one rows u
  · calc (dispatched_user_ids valid).length
        ≤ (valid.filterMap (fun row => rowGet row "submitterid")).length :=
          List.length_filter_le _ _
      _ ≤ valid.length := List.length_filterMap_le _ _

/-- C10: a failed registered-teams query yields an empty team list and an
empty member collection, a failed single-team member query yields an
empty member list for that team, and the pipeline hands the resulting
(possibly shrunken) collection to validation as-is — no error is
surfaced to the evaluator. -/
theorem registered_set_silent_shrink (env : Env) (challenge_id : String) :
    (∀ e, env.synRestGetChallengeTeams challenge_id = .error e →
      get_registered_teams env challenge_id = [] ∧
      get_all_registered_team_members env challenge_id = []) ∧
    (∀ team_id e, env.synGetTeamMembers team_id = .error e →
      get_team_members env team_id = []) ∧
    (∀ rows, run_validation env challenge_id rows =
      validate_responses env (get_all_registered_team_members env challenge_id)
        (get_unique_rows rows)) := by
  refine ⟨?_, ?_, ?_⟩
  · intro e he
    have h1 : get_registered_teams env challenge_id = [] := by
      simp [get_registered_teams, he]
    exact ⟨h1, by simp [get_all_registered_team_members, h1]⟩
  · intro team_id e he
    simp [get_team_members, he]
  · intro rows
    rfl

/-- C3 (code-bug evidence): account 123 — userName alice — is a member of
registered team `T1`, hence belongs to the spec's Registered-Member Set
of canonical account ids, and is not a direct registration-team member;
the code collects the team members' userNames and tests the resolved
ownerId against them, so the registration check fails and the response
is rejected `NotRegistered` instead of passing the registration check. -/
theorem registration_check_ownerid_username_mismatch :
    "123" ∈ registeredMemberSetSpec envC "ch1" ∧
    get_all_registered_team_members envC "ch1" = ["alice"] ∧
    is_user_registered envC "123" (get_all_registered_team_members envC "ch1") = false ∧
    evalRow envC (get_all_registered_team_members envC "ch1")
      [("Synapse Username", "alice")] = .ok (.Rejected .NotRegistered) :=
  ⟨by decide, rfl, rfl, rfl⟩

/-- C1 witness: in `envA`, bob resolves to account 102, is neither in the
computed registered-member collection nor in the registration team, and
is already in the data access team; he is rejected `NotRegistered`. -/
theorem eligibility_precedence_order_witness :
    evalRow envA (get_all_registered_team_members envA "ch1")
      [("Synapse Username", "bob")] = .ok (Decision.Rejected .NotRegistered) ∧
    evalRow envA (get_all_registered_team_members envA "ch1")
      [("Synapse Username", "bob")] ≠ .ok (Decision.Rejected .AlreadyMember) :=
  (eligibility_precedence_order envA (get_all_registered_team_members envA "ch1")
    [("Synapse Username", "bob")] "102" rfl (by decide)).2 (by decide) rfl

/-- C2 counterexample: in `envB` the data-access membership and
pending-invitation queries both fail transiently, yet carol's response is
accepted — not rejected with any query-failure reason. -/
theorem transient_failure_accepts_cex :
    envB.synGetTeamMembers DATA_ACCESS_TEAM_ID = .error .otherError ∧
    envB.synGetTeamOpenInvitations DATA_ACCESS_TEAM_ID = .error .otherError ∧
    evalRow envB [] [("Synapse Username", "carol")] = .ok (.Accepted "103") :=
  ⟨rfl, rfl, rfl⟩

/-- C2 amended witness: the swallowed-failure behaviour at the concrete
state `envB`. -/
theorem transient_query_failure_swallowed_witness :
    is_user_in_team envB DATA_ACCESS_TEAM_ID "103" = false ∧
    has_pending_invitation envB DATA_ACCESS_TEAM_ID "103" = false ∧
    evalRow envB [] [("Synapse Username", "carol")] = .ok (.Accepted "103") ∧
    validate_responses envB [] [[("Synapse Username", "carol")]] =
      (validate_responses envB [] []).map
        (fun valid => rowSet [("Synapse Username", "carol")] "submitterid" "103" :: valid) :=
  transient_query_failure_swallowed envB [] [("Synapse Username", "carol")] []
    "103" .otherError .otherError rfl (by decide) rfl rfl rfl

/-- C4 witness: a row with no `Synapse Username` key at all is rejected
`UnknownIdentity`. -/
theorem unknown_identity_always_rejected_witness :
    evalRow envA [] [] = .ok (.Rejected .UnknownIdentity) :=
  unknown_identity_always_rejected envA [] [] (Or.inl rfl)

/-- C5 counterexample: dave's profile lookup raises an uncaught exception
class, so the whole batch aborts — erin's response, accepted when
processed alone, is never evaluated. -/
theorem batch_abort_cex :
    envA.synGetUserProfile "dave" = .error .otherError ∧
    validate_responses envA [] [[("Synapse Username", "erin")]] =
      .ok [rowSet [("Synapse Username", "erin")] "submitterid" "104"] ∧
    validate_responses envA []
      [[("Synapse Username", "dave")], [("Synapse Username", "erin")]] =
      .error .otherError :=
  ⟨rfl, rfl, rfl⟩

/-- C5 amended witness: in `envB` — where membership, team-list and
invitation queries all fail — a two-row batch still completes. -/
theorem batch_never_aborts_amended_witness :
    (validate_responses envB [] [[("Synapse Username", "carol")], []]).isOk = true :=
  batch_never_aborts_amended envB
    (by intro u; by_cases hu : u = "carol" <;> simp [envB, hu]) []
    [[("Synapse Username", "carol")], []]

/-- C6 counterexample: alice and bob are distinct post-deduplication
claims that both resolve to account 123; the Dispatcher is invoked twice
for that one account in a single batch. -/
theorem duplicate_invitation_per_account_cex :
    (run_validation envE "ch1"
      [[("Synapse Username", "alice")], [("Synapse Username", "bob")]]).map
      (fun valid => List.count "123" (dispatched_user_ids valid)) = .ok 2 := rfl

/-- C6 amended witness: at most one accepted row per identity-claim value
in the concrete duplicate-account batch. -/
theorem at_most_one_dispatch_per_claim_witness :
    List.countP (fun r => rowGet r "Synapse Username" = some "alice")
      [rowSet [("Synapse Username", "alice")] "submitterid" "123",
       rowSet [("Synapse Username", "bob")] "submitterid" "123"] ≤ 1 ∧
    (dispatched_user_ids
      [rowSet [("Synapse Username", "alice")] "submitterid" "123",
       rowSet [("Synapse Username", "bob")] "submitterid" "123"]).length ≤
      ([rowSet [("Synapse Username", "alice")] "submitterid" "123",
        rowSet [("Synapse Username", "bob")] "submitterid" "123"] : List Row).length :=
  at_most_one_dispatch_per_claim envE []
    [[("Synapse Username", "alice")], [("Synapse Username", "bob")]]
    [rowSet [("Synapse Username", "alice")] "submitterid" "123",
     rowSet [("Synapse Username", "bob")] "submitterid" "123"] rfl "alice"

/-- C9 witness: the single accepted erin row is the input row with only
`submitterid` assigned. -/
theorem validate_responses_frame_witness :
    ∃ r ∈ [[("Synapse Username", "erin")]], ∃ uid,
      rowSet [("Synapse Username", "erin")] "submitterid" "104" = rowSet r "submitterid" uid ∧
      ∀ k, k ≠ "submitterid" →
        rowGet (rowSet [("Synapse Username", "erin")] "submitterid" "104") k = rowGet r k :=
  validate_responses_frame envA [] [[("Synapse Username", "erin")]]
    [rowSet [("Synapse Username", "erin")] "submitterid" "104"] rfl
    (rowSet [("Synapse Username", "erin")] "submitterid" "104") (List.mem_singleton.mpr rfl)

/-- C10 witness: in `envB` the teams query and a member query fail, the
collection collapses to empty, and the pipeline evaluates against it. -/
theorem registered_set_silent_shrink_witness :
    get_registered_teams envB "ch1" = [] ∧
    get_all_registered_team_members envB "ch1" = [] ∧
    get_team_members envB "T9" = [] ∧
    run_validation envB "ch1" [] =
      validate_responses envB (get_all_registered_team_members envB "ch1")
        (get_unique_rows []) :=
  ⟨((registered_set_silent_shrink envB "ch1").1 .otherError rfl).1,
   ((registered_set_silent_shrink envB "ch1").1 .otherError rfl).2,
   (registered_set_silent_shrink envB "ch1").2.1 "T9" .otherError rfl,
   (registered_set_silent_shrink envB "ch1").2.2 []⟩
